import Mathlib

/-!
A verification development for the Market-Researcher repository.

The Python source is shallowly embedded: pure functions become Lean
functions, the SQLite / MongoDB stores become explicit state passing over
list-based collection models, machine clocks become explicit `now : Nat`
parameters, and fallible external calls (language model, HTTP fetches)
become `Except PyExc` valued oracles passed in as parameters.  Exceptions
raised by Python code are modelled by the `Except` error channel; a
`try/except` block becomes a `match` on that channel.
-/

set_option linter.unusedVariables false
set_option maxRecDepth 8192

/-- Python exception values that can cross the boundaries the code guards
with `try/except`: `requests.exceptions.Timeout`,
`requests.exceptions.RequestException`, and any other `Exception`.
The `String` payload models `str(e)`. -/
inductive PyExc where
  | timeout (msg : String)
  | requestError (msg : String)
  | otherError (msg : String)
deriving DecidableEq

/-- Model of Python `str(e)` on an exception value. -/
def PyExc.msg : PyExc → String
  | .timeout m => m
  | .requestError m => m
  | .otherError m => m

/-- Python truthiness of an optional string (`if not x: ...`):
`None` and `""` are falsy, everything else truthy. -/
def truthy : Option String → Bool
  | none => false
  | some s => s != ""

/-- The characters of a string, lowercased (models comparing text
case-insensitively, as SQLite `LIKE` and `str.lower` do for ASCII). -/
def lowerStr (s : String) : List Char := s.data.map Char.toLower

/-- Whether `needle` occurs at the very start of `hay` (on char lists). -/
def startsHere : List Char → List Char → Bool
  | [], _ => true
  | _ :: _, [] => false
  | a :: as, b :: bs => (a == b) && startsHere as bs

/-- Whether `needle` occurs contiguously anywhere inside `hay`
(models Python's substring operator `in` on strings). -/
def occursIn (needle : List Char) : List Char → Bool
  | [] => startsHere needle []
  | c :: rest => startsHere needle (c :: rest) || occursIn needle rest

/-- Python `needle in hay` on strings (case-sensitive substring test). -/
def pyIn (needle hay : String) : Bool := occursIn needle.data hay.data

/-- Case-insensitive substring test, the specification-side reading of the
Query Store's `searchTerm` filter. -/
def containsCI (needle hay : String) : Bool :=
  occursIn (lowerStr needle) (lowerStr hay)

/-- Fuel-indexed SQLite `LIKE` matcher over char lists: `%` matches any
sequence of characters, `_` matches exactly one character, and ordinary
characters compare case-insensitively (SQLite's default ASCII folding,
modelled with `Char.toLower`).  The fuel only serves termination; any
fuel above `p.length + q.length` computes the same answer. -/
def likeFuel : Nat → List Char → List Char → Bool
  | 0, _, _ => false
  | _ + 1, [], q => q.isEmpty
  | f + 1, p0 :: ps, [] => if p0 = '%' then likeFuel f ps [] else false
  | f + 1, p0 :: ps, c :: qs =>
    if p0 = '%' then likeFuel f ps (c :: qs) || likeFuel f (p0 :: ps) qs
    else if p0 = '_' then likeFuel f ps qs
    else (p0.toLower == c.toLower) && likeFuel f ps qs

/-- SQLite `LIKE` pattern matching (pattern against text). -/
def likeMatch (p q : List Char) : Bool :=
  likeFuel (p.length + q.length + 1) p q

/-- SQLite `text LIKE pattern` on strings. -/
def sqlLike (pattern text : String) : Bool := likeMatch pattern.data text.data

/-- A char list free of the SQL `LIKE` wildcard characters. -/
def noWild (l : List Char) : Prop := ∀ c ∈ l, c ≠ '%' ∧ c ≠ '_'

instance (l : List Char) : Decidable (noWild l) := by
  unfold noWild; infer_instance

/-- Python `str.split()` with no argument: split on runs of whitespace,
dropping empty pieces.  `acc` accumulates the current word reversed. -/
def wordsAux : List Char → List Char → List String
  | [], acc => if acc.isEmpty then [] else [String.mk acc.reverse]
  | c :: cs, acc =>
    if c.isWhitespace then
      if acc.isEmpty then wordsAux cs [] else String.mk acc.reverse :: wordsAux cs []
    else wordsAux cs (c :: acc)

/-- Python `s.split()`. -/
def pyWords (s : String) : List String := wordsAux s.data []

/-- Python `s.upper()` (ASCII model). -/
def pyUpper (s : String) : String := String.mk (s.data.map Char.toUpper)

/-- Python `s.lower()` (ASCII model). -/
def pyLower (s : String) : String := String.mk (s.data.map Char.toLower)

/-- Python `s.strip()` with no argument: drop whitespace from both ends. -/
def pyStrip (s : String) : String :=
  String.mk
    (((s.data.dropWhile Char.isWhitespace).reverse.dropWhile
        Char.isWhitespace).reverse)

/-- Python `s.isalnum()` (ASCII model): non-empty and every character
alphanumeric. -/
def pyIsAlnum (l : List Char) : Bool := !l.isEmpty && l.all Char.isAlphanum

/-- Python's `round` to 3 decimal places on an exact rational: scale by
1000, round half to even (banker's rounding), scale back. -/
def pyRoundHalfEven (q : ℚ) : ℤ :=
  let f : ℤ := ⌊q⌋
  let frac : ℚ := q - f
  if frac < 1/2 then f
  else if 1/2 < frac then f + 1
  else if f % 2 = 0 then f else f + 1

/-- Python `round(q, 3)` on an exact rational. -/
def pyRound3 (q : ℚ) : ℚ := (pyRoundHalfEven (q * 1000) : ℚ) / 1000

/-!
## The SQLite-backed Query Store (`src/api/database.py`)

The table `query_history(query_id INTEGER PRIMARY KEY AUTOINCREMENT, query,
agent, response, timestamp DATETIME DEFAULT CURRENT_TIMESTAMP,
execution_time)` is modelled as a list of rows in insertion order plus the
AUTOINCREMENT sequence value (largest `query_id` ever issued; SQLite keeps
it in `sqlite_sequence` and `DELETE` never resets it).  `query_id` is the
table's INTEGER PRIMARY KEY, i.e. the storage engine's rowid.  Timestamps
are modelled as `Nat` clock ticks supplied by the caller (`now`), standing
for `CURRENT_TIMESTAMP`; execution times as exact rationals.
-/

namespace Db

/-- One row of `query_history`, as returned by `_row_to_dict`. -/
structure Row where
  query_id : Nat
  query : String
  agent : String
  response : String
  timestamp : Nat
  execution_time : ℚ
deriving DecidableEq

/-- The database state: rows in insertion order plus the AUTOINCREMENT
sequence (`query_id` of the most recently inserted row ever, 0 initially). -/
structure DB where
  rows : List Row
  seq : Nat
deriving DecidableEq

/-- `init_db`: a fresh empty database. -/
def init_db : DB := { rows := [], seq := 0 }

/-- `save_query(query, agent, response, execution_time)`:
`INSERT INTO query_history ...` with the server-assigned timestamp `now`;
returns `cursor.lastrowid` (the fresh AUTOINCREMENT `query_id`) and the
new state. -/
def save_query (db : DB) (now : Nat) (query agent response : String)
    (execution_time : ℚ) : Nat × DB :=
  let id := db.seq + 1
  (id,
   { rows := db.rows ++
       [{ query_id := id, query := query, agent := agent,
          response := response, timestamp := now,
          execution_time := execution_time }],
     seq := id })

/-- `get_query_by_id`: `SELECT ... WHERE query_id = ?` point lookup. -/
def get_query_by_id (db : DB) (query_id : Nat) : Option Row :=
  db.rows.find? (fun r => r.query_id == query_id)

/-- The `agent = ?` condition of `get_query_history`, added only when
`agent_filter` is truthy (`if agent_filter:`). -/
def agentPass (agent_filter : Option String) (r : Row) : Bool :=
  match agent_filter with
  | none => true
  | some a => if a == "" then true else r.agent == a

/-- The `query LIKE ?` condition of `get_query_history` with parameter
`f"%{search}%"`, added only when `search` is truthy (`if search:`). -/
def searchPass (search : Option String) (r : Row) : Bool :=
  match search with
  | none => true
  | some t => if t == "" then true else sqlLike ("%" ++ t ++ "%") r.query

/-- The full WHERE clause of `get_query_history`. -/
def wherePass (agent_filter search : Option String) (r : Row) : Bool :=
  agentPass agent_filter r && searchPass search r

/-- The `ORDER BY timestamp DESC` relation. -/
def tsGe (a b : Row) : Prop := b.timestamp ≤ a.timestamp

instance : DecidableRel tsGe := fun a b => Nat.decLe b.timestamp a.timestamp

instance : IsTotal Row tsGe := ⟨fun a b => Nat.le_total b.timestamp a.timestamp⟩

instance : IsTrans Row tsGe := ⟨fun _ _ _ hab hbc => Nat.le_trans hbc hab⟩

/-- `get_query_history(limit, offset, agent_filter, search)`:
`SELECT COUNT(*) ... WHERE ...` then
`SELECT ... WHERE ... ORDER BY timestamp DESC LIMIT ? OFFSET ?`.
Returns `(items, total)`. -/
def get_query_history (db : DB) (limit offset : Nat)
    (agent_filter search : Option String) : List Row × Nat :=
  let matching := db.rows.filter (wherePass agent_filter search)
  let sorted := List.insertionSort tsGe matching
  ((sorted.drop offset).take limit, matching.length)

/-- One step of building the `queries_by_agent` dict: bump the count of
`agent`, first occurrence appended with count 1. -/
def bump : List (String × Nat) → String → List (String × Nat)
  | [], agent => [(agent, 1)]
  | (k, v) :: rest, agent =>
    if k == agent then (k, v + 1) :: rest else (k, v) :: bump rest agent

/-- `SELECT agent, COUNT(*) FROM query_history GROUP BY agent` turned into
the `queries_by_agent` dict. -/
def groupCounts (rows : List Row) : List (String × Nat) :=
  rows.foldl (fun acc r => bump acc r.agent) []

/-- `SELECT AVG(execution_time) ...`: the running sum used by the mean. -/
def sumTimes (rows : List Row) : ℚ :=
  rows.foldl (fun acc r => acc + r.execution_time) 0

/-- The result shape of `get_statistics`. -/
structure Stats where
  total_queries : Nat
  queries_by_agent : List (String × Nat)
  avg_execution_time : ℚ
  last_query_time : Option Nat
deriving DecidableEq

/-- `get_statistics()`: total count, per-agent counts, `AVG` rounded with
`round(avg_time, 3)` (`NULL`, i.e. the empty store, becomes `0.0`), and the
timestamp of the first row of `ORDER BY timestamp DESC LIMIT 1`. -/
def get_statistics (db : DB) : Stats :=
  let avg_time : ℚ :=
    if db.rows.isEmpty then 0 else sumTimes db.rows / (db.rows.length : ℚ)
  { total_queries := db.rows.length
    queries_by_agent := groupCounts db.rows
    avg_execution_time := pyRound3 avg_time
    last_query_time :=
      ((List.insertionSort tsGe db.rows).head?).map (fun r => r.timestamp) }

/-- `delete_query(query_id)`: `DELETE ... WHERE query_id = ?`; returns
whether a row was removed (`cursor.rowcount > 0`) and the new state. -/
def delete_query (db : DB) (query_id : Nat) : Bool × DB :=
  (db.rows.any (fun r => r.query_id == query_id),
   { rows := db.rows.filter (fun r => r.query_id != query_id), seq := db.seq })

/-- `clear_history()`: `DELETE FROM query_history`; returns the removed
count and the new state (the AUTOINCREMENT sequence survives). -/
def clear_history (db : DB) : Nat × DB :=
  (db.rows.length, { rows := [], seq := db.seq })

/-- A Query Store operation, for stating id stability across the store's
mutating API. -/
inductive Op where
  | save (now : Nat) (query agent response : String) (execution_time : ℚ)
  | del (query_id : Nat)
  | clear
deriving DecidableEq

/-- Run one operation, keeping only the state. -/
def applyOp (db : DB) : Op → DB
  | .save now q a r t => (save_query db now q a r t).2
  | .del id => (delete_query db id).2
  | .clear => (clear_history db).2

/-- Run a sequence of operations. -/
def applyOps (db : DB) (ops : List Op) : DB := ops.foldl applyOp db

/-- Operations that do not destroy the record with id `id`: any insert, a
delete of a different id.  `clear` destroys every record. -/
def avoids (id : Nat) : Op → Prop
  | .save _ _ _ _ _ => True
  | .del i => i ≠ id
  | .clear => False

instance (id : Nat) (op : Op) : Decidable (avoids id op) := by
  cases op <;> simp [avoids] <;> infer_instance

/-- The store invariant: every live `query_id` is positive, bounded by the
AUTOINCREMENT sequence, and pairwise distinct. -/
def Inv (db : DB) : Prop :=
  (∀ r ∈ db.rows, 1 ≤ r.query_id ∧ r.query_id ≤ db.seq) ∧
  (db.rows.map Row.query_id).Nodup

instance (db : DB) : Decidable (Inv db) := by
  unfold Inv; infer_instance

end Db

/-!
## The MongoDB-backed Query Store (`src/Database/mongodb.py`)

The collection is a list of documents in insertion order plus the engine's
`_id` counter: `insert_one` assigns each new document a fresh internal
ObjectId, modelled as the `Nat` `nextOid`.  Randomness in
`_generate_unique_query_id` (`random.randint(100, 999)` per attempt) is
modelled by an oracle `rand : Nat → Nat` giving the i-th draw; the Python
`raise RuntimeError(...)` becomes the `Except.error` channel carrying the
message.
-/

namespace Mongo

/-- One stored document, with the engine-internal `_id` (`oid`) and the
fields written by `save_query_document` (`answer` is the stored alias of
`response`). -/
structure MDoc where
  oid : Nat
  query_id : Nat
  query : String
  agent : String
  response : String
  answer : String
  execution_time : ℚ
  timestamp : Nat
  adjustments : List String
deriving DecidableEq

/-- The collection state. -/
structure MCol where
  docs : List MDoc
  nextOid : Nat
deriving DecidableEq

/-- `collection.find_one({"query_id": candidate})`. -/
def find_one_qid (col : MCol) (qid : Nat) : Option MDoc :=
  col.docs.find? (fun d => d.query_id == qid)

/-- The retry loop of `_generate_unique_query_id`: attempt `i` draws
`rand i`; up to `fuel` attempts remain. -/
def genAux (col : MCol) (rand : Nat → Nat) : Nat → Nat → Except String Nat
  | _, 0 => .error "Unable to generate a unique 3-digit query_id"
  | i, fuel + 1 =>
    let candidate := rand i
    if (find_one_qid col candidate).isSome then genAux col rand (i + 1) fuel
    else .ok candidate

/-- `_generate_unique_query_id(collection)`: up to 50 random 3-digit
candidates, returning the first one not present, else raising. -/
def _generate_unique_query_id (col : MCol) (rand : Nat → Nat) :
    Except String Nat :=
  genAux col rand 0 50

/-- `save_query_document(query, agent, response, execution_time,
adjustments)`: allocate a `query_id`, `insert_one` the document (engine
assigns `_id := nextOid`, server clock gives `timestamp := now`), return
the `query_id`.  An allocator failure propagates (it is raised, not
caught). -/
def save_query_document (col : MCol) (rand : Nat → Nat)
    (query agent response : String) (execution_time : ℚ)
    (adjustments : List String) (now : Nat) : Except String (Nat × MCol) :=
  match _generate_unique_query_id col rand with
  | .error e => .error e
  | .ok query_id =>
    .ok (query_id,
      { docs := col.docs ++
          [{ oid := col.nextOid, query_id := query_id, query := query,
             agent := agent, response := response, answer := response,
             execution_time := execution_time, timestamp := now,
             adjustments := adjustments }],
        nextOid := col.nextOid + 1 })

/-- The dict produced by `_normalize_document`. -/
structure NormDoc where
  query_id : String
  query : String
  agent : String
  response : String
  timestamp : Nat
  execution_time : ℚ
  adjustments : List String
deriving DecidableEq

/-- `_normalize_document(doc)`: NOTE the source sets
`"query_id": str(doc.get("_id"))` — the string form of the engine's
internal `_id`, not the stored 3-digit `query_id` field. -/
def _normalize_document (d : MDoc) : NormDoc :=
  { query_id := toString d.oid
    query := d.query
    agent := d.agent
    response := d.response
    timestamp := d.timestamp
    execution_time := d.execution_time
    adjustments := d.adjustments }

/-- `get_query_document_by_id(query_id)`: `find_one({"query_id": ...})`
then `_normalize_document`, `None` when absent. -/
def get_query_document_by_id (col : MCol) (query_id : Nat) : Option NormDoc :=
  (find_one_qid col query_id).map _normalize_document

end Mongo

/-!
## The Specialist Responders (`src/agents/*.py`)

Each responder takes its external collaborators as oracle parameters:
the HTTP fetch (`requests.get` together with `.json()` parsing, or
`yfinance`'s `Ticker(...).info`), and the language-model call
(`get_llm().invoke(...)`, returning the reply `content`).  A raised Python
exception is an `Except.error` carrying a `PyExc`.  The responder's own
result is `Except PyExc String`: an `.error` outcome would model an
exception escaping to the caller.  Numeric f-string formatting
(`{price:.2f}`, `{reviews:,}`) is abstracted to `toString`; a formatting
failure inside a `try` block is covered by the fetch oracle's error
channel, since it is caught by the same handler.
-/

namespace Agents

/-- One article of the NewsAPI response, with the fields `news_agent`
reads (each `a.get(...)` default is materialised by the field). -/
structure NewsArticle where
  title : String
  source : String
  publishedAt : String
  description : String
  url : String
deriving DecidableEq

/-- The parsed NewsAPI JSON body. -/
structure NewsJson where
  status : String
  message : Option String
  articles : List NewsArticle
deriving DecidableEq

/-- The `requests.get` response: status code, raw text, and the result of
`.json()` (which itself can raise). -/
structure HttpResp where
  status_code : Nat
  text : String
  json : Except PyExc NewsJson

/-- The per-article markdown block built inside `news_agent`'s loop
(`publishedAt[:10]` is the 10-character date slice). -/
def formatArticle (a : NewsArticle) : String :=
  let published := String.mk (a.publishedAt.data.take 10)
  "### 📰 " ++ a.title ++ "\n" ++
  "**Source:** " ++ a.source ++ " | **Date:** " ++ published ++ "\n\n" ++
  a.description ++ "\n" ++
  "[Read Full Article](" ++ a.url ++ ")\n" ++
  "---\n"

/-- The LLM prompt `news_agent` builds from the query and formatted
articles. -/
def newsPrompt (query raw_news : String) : String :=
  "\nYou are a highly skilled real-world news analyst. \nProvide:\n" ++
  "- A clear, neutral summary\n- Key events in bullet points\n" ++
  "- Political, economic, and social impact\n- Risks or opportunities\n" ++
  "- A concluding insight\n\nHere are the top latest articles for: **" ++
  query ++ "**\n\n" ++ raw_news ++ "\n"

/-- The body of `news_agent`'s `try` block; an `.error` models an
exception reaching the `except` clauses. -/
def newsBody (http : Except PyExc HttpResp)
    (llm : String → Except PyExc String) (query : String) :
    Except PyExc String :=
  match http with
  | .error e => .error e
  | .ok resp =>
    if resp.status_code ≠ 200 then
      .ok ("❌ API Request Failed (" ++ toString resp.status_code ++ "): " ++
        resp.text)
    else
      match resp.json with
      | .error e => .error e
      | .ok data =>
        if data.status ≠ "ok" then
          .ok ("❌ NewsAPI Error: " ++ data.message.getD "Unknown error")
        else if data.articles.isEmpty then
          .ok ("📭 No recent news found for **" ++ query ++ "**.")
        else
          let raw_news :=
            String.intercalate "\n"
              ((data.articles.take 3).map formatArticle)
          match llm (newsPrompt query raw_news) with
          | .error e => .error e
          | .ok summary =>
            .ok ("## 🔍 Latest Real-World Analysis on: **" ++ query ++
              "**\n\n" ++ summary)

/-- `news_agent(query)`: missing-key early return, then the `try` body
with its three `except` clauses (`Timeout`, `RequestException`,
`Exception`), each converting the failure to explanatory text. -/
def news_agent (api_key : Option String) (http : Except PyExc HttpResp)
    (llm : String → Except PyExc String) (query : String) :
    Except PyExc String :=
  if truthy api_key = false then
    .ok "❌ News API key is missing. Please configure NEWS_API_KEY."
  else
    match newsBody http llm query with
    | .ok s => .ok s
    | .error (.timeout _) => .ok "⏳ Request timed out. Please try again."
    | .error (.requestError m) => .ok ("❌ Network Error: " ++ m)
    | .error (.otherError m) => .ok ("❌ Unexpected Error: " ++ m)

/-- One product of the RapidAPI Amazon search response. -/
structure Product where
  product_title : String
  product_price : String
  product_star_rating : String
  product_num_ratings : Nat
  product_url : String
deriving DecidableEq

/-- The parsed RapidAPI JSON body (`status` plus `data.products`). -/
structure MarketJson where
  status : String
  products : List Product
deriving DecidableEq

/-- The product line built by `market_agent`'s `enumerate(products, 1)`
loop, for index `i`. -/
def formatProduct (i : Nat) (p : Product) : String :=
  "**" ++ toString i ++ ". " ++ p.product_title ++ "**\n" ++
  "   • Price: " ++ p.product_price ++ "\n" ++
  "   • Rating: " ++ p.product_star_rating ++ " stars (" ++
  toString p.product_num_ratings ++ " reviews)\n" ++
  "   • [View on Amazon](" ++ p.product_url ++ ")\n"

/-- `enumerate(products, 1)`: format each product with its 1-based index. -/
def enumProducts (i : Nat) : List Product → List String
  | [] => []
  | p :: ps => formatProduct i p :: enumProducts (i + 1) ps

/-- The LLM prompt `market_agent` builds. -/
def marketPrompt (query raw_data : String) : String :=
  "User wants: " ++ query ++ "\n\nHere are top Amazon results:\n" ++
  raw_data ++ "\n\nProvide detailed comparison and recommendation."

/-- The body of `market_agent`'s `try` block. -/
def marketBody (http : Except PyExc MarketJson)
    (llm : String → Except PyExc String) (query : String) :
    Except PyExc String :=
  match http with
  | .error e => .error e
  | .ok data =>
    if data.status ≠ "OK" ∨ data.products.isEmpty then
      .ok ("No products found for '" ++ query ++ "' on Amazon.")
    else
      let raw_data :=
        String.intercalate "\n" (enumProducts 1 (data.products.take 4))
      match llm (marketPrompt query raw_data) with
      | .error e => .error e
      | .ok analysis =>
        .ok ("### Market Research: " ++ query ++ "\n\n" ++ analysis)

/-- `market_agent(query)`: missing-key early return, then the `try` body
with its single catch-all `except Exception`. -/
def market_agent (key : Option String) (http : Except PyExc MarketJson)
    (llm : String → Except PyExc String) (query : String) :
    Except PyExc String :=
  if truthy key = false then .ok "RapidAPI key not configured."
  else
    match marketBody http llm query with
    | .ok s => .ok s
    | .error e => .ok ("Market research failed: " ++ e.msg)

/-- The company-name lookup table of `extract_symbol`. -/
def common_tickers : List (String × String) :=
  [("APPLE", "AAPL"), ("TESLA", "TSLA"), ("GOOGLE", "GOOGL"),
   ("MICROSOFT", "MSFT"), ("AMAZON", "AMZN"), ("NVIDIA", "NVDA"),
   ("META", "META"), ("NETFLIX", "NFLX")]

/-- The word-shape check of `extract_symbol`:
`len(word) <= 5 and word.replace(".", "").isalnum()`. -/
def tickerShaped (w : String) : Bool :=
  w.length ≤ 5 && pyIsAlnum (w.data.filter (fun c => c ≠ '.'))

/-- The `for word in query_upper.split()` loop of `extract_symbol`. -/
def extractLoop : List String → String
  | [] => "AAPL"
  | w :: ws =>
    match common_tickers.lookup w with
    | some t => t
    | none => if tickerShaped w then w else extractLoop ws

/-- `extract_symbol(query)`: uppercase, split into words, map known
company names to tickers, accept any short alphanumeric word as a ticker,
default `"AAPL"`. -/
def extract_symbol (query : String) : String :=
  extractLoop (pyWords (pyUpper query))

/-- The `ticker.info` fields `stock_agent` reads, as numbers (the
successful-fetch shape; any failure of the fetch or of the numeric
formatting inside the `try` block travels on the oracle's error channel). -/
structure StockInfo where
  name : String
  price : ℚ
  change : ℚ
  change_pct : ℚ
  volume : Nat
  market_cap : ℚ
  day_high : ℚ
  day_low : ℚ
deriving DecidableEq

/-- The stats block `stock_agent` builds from the fetched info. -/
def formatStats (symbol : String) (info : StockInfo) : String :=
  "**" ++ info.name ++ " (" ++ symbol ++ ")**\n" ++
  "• Current Price: $" ++ toString info.price ++ "\n" ++
  "• Change: " ++ toString info.change ++ " (" ++ toString info.change_pct ++
  "%)\n" ++
  "• Day Range: $" ++ toString info.day_low ++ " - $" ++
  toString info.day_high ++ "\n" ++
  "• Volume: " ++ toString info.volume ++ "\n" ++
  "• Market Cap: $" ++ toString info.market_cap ++ "B"

/-- The LLM prompt `stock_agent` builds. -/
def stockPrompt (symbol stats query : String) : String :=
  "Current data for " ++ symbol ++ ":\n" ++ stats ++ "\n\nQuery: " ++
  query ++ "\n\nProvide brief outlook."

/-- The body of `stock_agent`'s `try` block. -/
def stockBody (fetch : String → Except PyExc StockInfo)
    (llm : String → Except PyExc String) (symbol query : String) :
    Except PyExc String :=
  match fetch symbol with
  | .error e => .error e
  | .ok info =>
    let stats := formatStats symbol info
    match llm (stockPrompt symbol stats query) with
    | .error e => .error e
    | .ok analysis =>
      .ok ("### Stock Analysis: " ++ symbol ++ "\n" ++ stats ++
        "\n\n**Insight:**\n" ++ analysis)

/-- `stock_agent(query)`: extract the ticker, then the `try` body with its
single catch-all `except Exception`. -/
def stock_agent (fetch : String → Except PyExc StockInfo)
    (llm : String → Except PyExc String) (query : String) :
    Except PyExc String :=
  let symbol := extract_symbol query
  match stockBody fetch llm symbol query with
  | .ok s => .ok s
  | .error e =>
    .ok ("Could not fetch stock data for " ++ symbol ++ ": " ++ e.msg)

end Agents

/-!
## The Routers

`supervisor_agent` (`src/supervisor/supervisor.py`) makes one LLM
classification call and branches on substrings of the normalised reply;
the whole body sits in one `try`, whose `except` returns the `Error`
result.  The four responders are passed in as total functions (their
totality is what `src/agents` guarantees).

`supervisor_node` (`src/multi_agent_system.py`) likewise classifies with
one LLM call, then falls back to keyword routing over the lowercased
query; its value is the name of the next graph node, with langgraph's
`END` modelled as `"__end__"`.
-/

namespace Router

/-- The dict returned by `supervisor_agent`. -/
structure RouteResult where
  agent : String
  response : String
  query : String
deriving DecidableEq

/-- `supervisor_agent(query)`: classify via the LLM reply
(`.content.strip().lower()`), branch on `"news" in route`,
`"market" in route`, `"stock" in route` in that order, else the General
fallback; any exception (in particular a failed LLM call) yields the
`Error` result. -/
def supervisor_agent (llm : Except PyExc String)
    (newsA marketA stockA generalA : String → String) (query : String) :
    RouteResult :=
  match llm with
  | .error e =>
    { agent := "Error", response := "System error: " ++ e.msg, query := query }
  | .ok content =>
    let route := pyLower (pyStrip content)
    if pyIn "news" route then
      { agent := "News Agent", response := newsA query, query := query }
    else if pyIn "market" route then
      { agent := "Market Research Agent", response := marketA query,
        query := query }
    else if pyIn "stock" route then
      { agent := "Stock Analyst", response := stockA query, query := query }
    else
      { agent := "General Assistant", response := generalA query,
        query := query }

/-- langgraph's `END` sentinel. -/
def END : String := "__end__"

/-- The keyword set of `supervisor_node`'s news fallback. -/
def news_keywords : List String := ["news", "article", "latest", "headlines"]

/-- The keyword set of `supervisor_node`'s market fallback. -/
def market_keywords : List String :=
  ["price", "feature", "iphone", "laptop", "buy"]

/-- The keyword set of `supervisor_node`'s stock fallback. -/
def stock_keywords : List String :=
  ["stock", "aapl", "tesla", "nasdaq", "price of"]

/-- `supervisor_node(state)` (routing part): branch on the LLM reply's
substrings; when nothing matches, fall back to keyword routing over the
lowercased query, with `news_agent` as the final default; when the LLM
call raises, the `except` returns `END` (no dispatch at all). -/
def supervisor_node (llm : Except PyExc String) (query : String) : String :=
  match llm with
  | .error _ => END
  | .ok content =>
    let route := pyLower (pyStrip content)
    if pyIn "news" route then "news_agent"
    else if pyIn "market" route || pyIn "product" route ||
        pyIn "iphone" route then "market_research_agent"
    else if pyIn "stock" route || pyIn "aapl" route then "stock_agent"
    else
      let q := pyLower query
      if news_keywords.any (fun w => pyIn w q) then "news_agent"
      else if market_keywords.any (fun w => pyIn w q) then
        "market_research_agent"
      else if stock_keywords.any (fun w => pyIn w q) then "stock_agent"
      else "news_agent"

end Router

/-!
## Concrete instances used by witnesses and counterexamples
-/

namespace Fix

/-- The i-th document of the saturated Mongo store. -/
def fullDoc (i : Nat) : Mongo.MDoc :=
  { oid := i, query_id := 100 + i, query := "q", agent := "News Agent",
    response := "r", answer := "r", execution_time := 1, timestamp := 0,
    adjustments := [] }

/-- A Mongo store that already contains every three-digit id 100–999. -/
def fullDocs : List Mongo.MDoc := (List.range 900).map fullDoc

/-- The saturated collection for the allocator-exhaustion scenario. -/
def fullCol : Mongo.MCol := { docs := fullDocs, nextOid := 900 }

/-- A random oracle whose draws are always three-digit values. -/
def randFull (i : Nat) : Nat := 100 + i % 900

/-- A random oracle that always draws 123. -/
def rand123 (_ : Nat) : Nat := 123

/-- An empty Mongo collection whose engine `_id` counter is at 5. -/
def mcol0 : Mongo.MCol := { docs := [], nextOid := 5 }

/-- The collection `mcol0` after one `save_query_document` insert. -/
def mcolAfter : Mongo.MCol :=
  { docs :=
      [{ oid := 5, query_id := 123, query := "q1", agent := "Stock Analyst",
         response := "resp", answer := "resp", execution_time := 3/2,
         timestamp := 9, adjustments := ["a"] }],
    nextOid := 6 }

/-- A stored Mongo document whose engine `_id` is 42 and whose allocated
3-digit id is 123. -/
def mdocC3 : Mongo.MDoc :=
  { oid := 42, query_id := 123, query := "q", agent := "News Agent",
    response := "r", answer := "r", execution_time := 1, timestamp := 0,
    adjustments := [] }

/-- A one-row SQLite store (id 1 already used). -/
def dbOne : Db.DB :=
  { rows := [{ query_id := 1, query := "old", agent := "News Agent",
               response := "r0", timestamp := 5, execution_time := 2 }],
    seq := 1 }

/-- The row of `dbOne`. -/
def rowOne : Db.Row :=
  { query_id := 1, query := "old", agent := "News Agent", response := "r0",
    timestamp := 5, execution_time := 2 }

/-- Operations that leave record 1 alone: an insert and a delete of a
different id. -/
def opsKeep : List Db.Op := [.save 8 "q2" "Stock Analyst" "r2" 1, .del 2]

/-- A row whose query text is the single letter x. -/
def rowX : Db.Row :=
  { query_id := 1, query := "x", agent := "News Agent", response := "r",
    timestamp := 1, execution_time := 1 }

/-- A one-row store for the LIKE-wildcard counterexample. -/
def dbX : Db.DB := { rows := [rowX], seq := 1 }

/-- Two rows whose timestamps increase with insertion order. -/
def rowA : Db.Row :=
  { query_id := 1, query := "latest AI news", agent := "News Agent",
    response := "ra", timestamp := 1, execution_time := 1 }

/-- Second fixture row. -/
def rowB : Db.Row :=
  { query_id := 2, query := "hello", agent := "Stock Analyst",
    response := "rb", timestamp := 2, execution_time := 2 }

/-- A two-row store used by the list/statistics witnesses. -/
def dbAB : Db.DB := { rows := [rowA, rowB], seq := 2 }

end Fix

/-!
## Claim theorems
-/

/-- C1 (amended): when the classification call raises, the router does
not fall back to keyword matching: `supervisor_agent` returns the Error
result (`agent = "Error"`, `response = "System error: ..."`), and
`supervisor_node` routes to `END`, dispatching no responder. -/
theorem c1_claim (e : PyExc) (newsA marketA stockA generalA : String → String)
    (query : String) :
    Router.supervisor_agent (.error e) newsA marketA stockA generalA query =
      { agent := "Error", response := "System error: " ++ e.msg,
        query := query } ∧
    Router.supervisor_node (.error e) query = Router.END :=
  ⟨rfl, rfl⟩

/-- C1 counterexample: for the input `"AAPL stock price"` with an
unavailable language model (the classification call raises), the router
returns the Error result, not a `"Stock Analyst"` result, refuting the
claimed keyword fallback on classification failure. -/
theorem c1_counterexample :
    (Router.supervisor_agent (.error (.otherError "LLM unavailable"))
        (fun _ => "n") (fun _ => "m") (fun _ => "s") (fun _ => "g")
        "AAPL stock price").agent = "Error" ∧
    (Router.supervisor_agent (.error (.otherError "LLM unavailable"))
        (fun _ => "n") (fun _ => "m") (fun _ => "s") (fun _ => "g")
        "AAPL stock price").agent ≠ "Stock Analyst" :=
  ⟨rfl, by decide⟩

/-- C10: passing the empty string as the agent filter (and likewise as the
search term) is identical to passing no filter at all: Python's
`if agent_filter:` / `if search:` treat `""` as absent, so no WHERE
condition is added. -/
theorem c10_claim (db : Db.DB) (limit offset : Nat)
    (agent_filter search : Option String) :
    Db.get_query_history db limit offset (some "") search =
      Db.get_query_history db limit offset none search ∧
    Db.get_query_history db limit offset agent_filter (some "") =
      Db.get_query_history db limit offset agent_filter none :=
  ⟨rfl, rfl⟩

/-- C8: every Specialist Responder is total: whatever the key
configuration, the data fetch outcome, the LLM outcome and the query, it
returns `.ok` text (no exception escapes), and a failing fetch is
converted into the responder's explanatory text. -/
theorem c8_claim :
    (∀ (api_key : Option String) (http : Except PyExc Agents.HttpResp)
        (llm : String → Except PyExc String) (query : String),
      ∃ s, Agents.news_agent api_key http llm query = .ok s) ∧
    (∀ (key : Option String) (http : Except PyExc Agents.MarketJson)
        (llm : String → Except PyExc String) (query : String),
      ∃ s, Agents.market_agent key http llm query = .ok s) ∧
    (∀ (fetch : String → Except PyExc Agents.StockInfo)
        (llm : String → Except PyExc String) (query : String),
      ∃ s, Agents.stock_agent fetch llm query = .ok s) ∧
    (∀ (api_key : Option String) (llm : String → Except PyExc String)
        (query m : String), truthy api_key = true →
      Agents.news_agent api_key (.error (.timeout m)) llm query =
        .ok "⏳ Request timed out. Please try again.") ∧
    (∀ (key : Option String) (llm : String → Except PyExc String)
        (query : String) (e : PyExc), truthy key = true →
      Agents.market_agent key (.error e) llm query =
        .ok ("Market research failed: " ++ e.msg)) ∧
    (∀ (llm : String → Except PyExc String) (query : String) (e : PyExc),
      Agents.stock_agent (fun _ => .error e) llm query =
        .ok ("Could not fetch stock data for " ++ Agents.extract_symbol query ++
          ": " ++ e.msg)) := by
  refine ⟨?_, ?_, ?_, ?_, ?_, ?_⟩
  · intro api_key http llm query
    cases hk : truthy api_key
    · exact ⟨"❌ News API key is missing. Please configure NEWS_API_KEY.",
        by unfold Agents.news_agent; rw [hk]; rfl⟩
    · rcases hb : Agents.newsBody http llm query with e | s
      · rcases e with m | m | m
        · exact ⟨"⏳ Request timed out. Please try again.",
            by unfold Agents.news_agent; rw [hk, hb]; rfl⟩
        · exact ⟨"❌ Network Error: " ++ m,
            by unfold Agents.news_agent; rw [hk, hb]; rfl⟩
        · exact ⟨"❌ Unexpected Error: " ++ m,
            by unfold Agents.news_agent; rw [hk, hb]; rfl⟩
      · exact ⟨s, by unfold Agents.news_agent; rw [hk, hb]; rfl⟩
  · intro key http llm query
    cases hk : truthy key
    · exact ⟨"RapidAPI key not configured.",
        by unfold Agents.market_agent; rw [hk]; rfl⟩
    · rcases hb : Agents.marketBody http llm query with e | s
      · exact ⟨"Market research failed: " ++ e.msg,
          by unfold Agents.market_agent; rw [hk, hb]; rfl⟩
      · exact ⟨s, by unfold Agents.market_agent; rw [hk, hb]; rfl⟩
  · intro fetch llm query
    rcases hb : Agents.stockBody fetch llm (Agents.extract_symbol query) query
      with e | s
    · exact ⟨"Could not fetch stock data for " ++ Agents.extract_symbol query ++
        ": " ++ e.msg, by simp only [Agents.stock_agent]; rw [hb]⟩
    · exact ⟨s, by simp only [Agents.stock_agent]; rw [hb]⟩
  · intro api_key llm query m hk
    unfold Agents.news_agent
    rw [hk]
    rfl
  · intro key llm query e hk
    unfold Agents.market_agent
    rw [hk]
    rcases e with m | m | m <;> rfl
  · intro llm query e
    unfold Agents.stock_agent Agents.stockBody
    rfl

/-- C8 witness: concrete failing fetches are answered with the exact
explanatory texts, never an exception. -/
theorem c8_witness :
    truthy (some "KEY") = true ∧
    Agents.news_agent (some "KEY") (.error (.timeout "t"))
        (fun _ => .ok "a") "q" = .ok "⏳ Request timed out. Please try again." ∧
    Agents.market_agent (some "KEY") (.error (.requestError "boom"))
        (fun _ => .ok "a") "q" = .ok ("Market research failed: " ++ "boom") ∧
    Agents.stock_agent (fun _ => .error (.otherError "down"))
        (fun _ => .ok "a") "hello" =
      .ok ("Could not fetch stock data for " ++ Agents.extract_symbol "hello" ++
        ": " ++ "down") :=
  ⟨by decide,
   c8_claim.2.2.2.1 _ _ _ _ (by decide),
   c8_claim.2.2.2.2.1 _ _ _ _ (by decide),
   c8_claim.2.2.2.2.2 _ _ _⟩

/-- Helper: the extraction loop returns the default ticker when no word
matches the lookup table and no word passes the shape check. -/
theorem extractLoop_default (ws : List String)
    (h : ∀ w ∈ ws, Agents.common_tickers.lookup w = none ∧
      Agents.tickerShaped w = false) :
    Agents.extractLoop ws = "AAPL" := by
  induction ws with
  | nil => rfl
  | cons w ws ih =>
    obtain ⟨h1, h2⟩ := h w (List.mem_cons_self w ws)
    unfold Agents.extractLoop
    rw [h1, h2]
    simp only [Bool.false_eq_true, if_false]
    exact ih (fun x hx => h x (List.mem_cons_of_mem w hx))

/-- C9 (amended): the extracted ticker is the fixed fallback `"AAPL"` for
every query in which no word matches the lookup table AND no word passes
the short-alphanumeric ticker-shape check (`len(word) <= 5 and
word.replace(".", "").isalnum()`); a query whose words merely miss the
lookup table can still yield that word itself as the ticker. -/
theorem c9_claim (query : String)
    (h : ∀ w ∈ pyWords (pyUpper query),
      Agents.common_tickers.lookup w = none ∧
      Agents.tickerShaped w = false) :
    Agents.extract_symbol query = "AAPL" :=
  extractLoop_default _ h

/-- C9 witness: a query none of whose words fits the lookup table or the
ticker shape (every word is longer than five characters) defaults to
`"AAPL"`. -/
theorem c9_witness :
    (∀ w ∈ pyWords (pyUpper "greetings valued researchers"),
      Agents.common_tickers.lookup w = none ∧
      Agents.tickerShaped w = false) ∧
    Agents.extract_symbol "greetings valued researchers" = "AAPL" :=
  ⟨by decide, c9_claim _ (by decide)⟩

/-- C9 counterexample: no word of `"hello"` matches the lookup table, yet
the extracted symbol is `"HELLO"` (a short alphanumeric word is accepted
as a ticker), not the claimed fallback `"AAPL"`. -/
theorem c9_counterexample :
    (∀ w ∈ pyWords (pyUpper "hello"),
      Agents.common_tickers.lookup w = none) ∧
    Agents.extract_symbol "hello" = "HELLO" ∧
    Agents.extract_symbol "hello" ≠ "AAPL" :=
  ⟨by decide, by decide, by decide⟩

/-- C7 (amended): `supervisor_agent` resolves the classification reply by
trimming and lowercasing it and matching substrings in the priority order
news, market, stock, with anything else dispatched to `"General
Assistant"`, so its resolved agent is always one of the four categories.
In `supervisor_node`, however, a query whose keyword fallback matches no
keyword set is dispatched to the News node (`"news_agent"` is the final
default), not to a General responder. -/
theorem c7_claim (content : String)
    (newsA marketA stockA generalA : String → String) (query : String) :
    ((Router.supervisor_agent (.ok content) newsA marketA stockA generalA
        query).agent =
      (if pyIn "news" (pyLower (pyStrip content)) = true then "News Agent"
       else if pyIn "market" (pyLower (pyStrip content)) = true then
         "Market Research Agent"
       else if pyIn "stock" (pyLower (pyStrip content)) = true then
         "Stock Analyst"
       else "General Assistant")) ∧
    ((Router.supervisor_agent (.ok content) newsA marketA stockA generalA
        query).agent ∈
      ["News Agent", "Market Research Agent", "Stock Analyst",
       "General Assistant"]) ∧
    ((∀ w ∈ ["news", "market", "product", "iphone", "stock", "aapl"],
        pyIn w (pyLower (pyStrip content)) = false) →
     (∀ w ∈ Router.news_keywords ++ Router.market_keywords ++
        Router.stock_keywords, pyIn w (pyLower query) = false) →
     Router.supervisor_node (.ok content) query = "news_agent") := by
  refine ⟨?_, ?_, ?_⟩
  · unfold Router.supervisor_agent
    cases h1 : pyIn "news" (pyLower (pyStrip content)) <;>
      cases h2 : pyIn "market" (pyLower (pyStrip content)) <;>
      cases h3 : pyIn "stock" (pyLower (pyStrip content)) <;>
      simp [h1, h2, h3]
  · unfold Router.supervisor_agent
    cases h1 : pyIn "news" (pyLower (pyStrip content)) <;>
      cases h2 : pyIn "market" (pyLower (pyStrip content)) <;>
      cases h3 : pyIn "stock" (pyLower (pyStrip content)) <;>
      simp [h1, h2, h3]
  · intro ha hq
    have hN := ha "news" (by simp)
    have hM := ha "market" (by simp)
    have hP := ha "product" (by simp)
    have hI := ha "iphone" (by simp)
    have hS := ha "stock" (by simp)
    have hA := ha "aapl" (by simp)
    have anyFalse : ∀ l : List String, (∀ w ∈ l, pyIn w (pyLower query) = false) →
        l.any (fun w => pyIn w (pyLower query)) = false := by
      intro l hl
      rw [Bool.eq_false_iff]
      intro hc
      obtain ⟨x, hx, hpx⟩ := List.any_eq_true.mp hc
      rw [hl x hx] at hpx
      exact Bool.false_ne_true hpx
    have aN := anyFalse Router.news_keywords
      (fun w hw => hq w (by simp [List.mem_append, hw]))
    have aM := anyFalse Router.market_keywords
      (fun w hw => hq w (by simp [List.mem_append, hw]))
    have aS := anyFalse Router.stock_keywords
      (fun w hw => hq w (by simp [List.mem_append, hw]))
    unfold Router.supervisor_node
    simp [hN, hM, hP, hI, hS, hA, aN, aM, aS]

/-- C7 witness: concrete replies land on each of the four agents in
priority order, and a reply plus query matching nothing land on the
`supervisor_node` default. -/
theorem c7_witness :
    (Router.supervisor_agent (.ok " NEWS ") (fun _ => "r") (fun _ => "r")
      (fun _ => "r") (fun _ => "r") "x").agent = "News Agent" ∧
    (Router.supervisor_agent (.ok "market or stock") (fun _ => "r")
      (fun _ => "r") (fun _ => "r") (fun _ => "r") "x").agent =
      "Market Research Agent" ∧
    (Router.supervisor_agent (.ok "Stock") (fun _ => "r") (fun _ => "r")
      (fun _ => "r") (fun _ => "r") "x").agent = "Stock Analyst" ∧
    (Router.supervisor_agent (.ok "banana") (fun _ => "r") (fun _ => "r")
      (fun _ => "r") (fun _ => "r") "x").agent = "General Assistant" ∧
    Router.supervisor_node (.ok "unclassified") "hello there" =
      "news_agent" :=
  ⟨((c7_claim " NEWS " (fun _ => "r") (fun _ => "r") (fun _ => "r")
      (fun _ => "r") "x").1).trans (by decide),
   ((c7_claim "market or stock" (fun _ => "r") (fun _ => "r") (fun _ => "r")
      (fun _ => "r") "x").1).trans (by decide),
   ((c7_claim "Stock" (fun _ => "r") (fun _ => "r") (fun _ => "r")
      (fun _ => "r") "x").1).trans (by decide),
   ((c7_claim "banana" (fun _ => "r") (fun _ => "r") (fun _ => "r")
      (fun _ => "r") "x").1).trans (by decide),
   (c7_claim "unclassified" (fun _ => "r") (fun _ => "r") (fun _ => "r")
      (fun _ => "r") "hello there").2.2 (by decide) (by decide)⟩

/-- C7 counterexample: in `supervisor_node`, a reply matching no label and
a query matching no keyword set are dispatched to the News node, not to a
General responder (the graph has no general node at all), refuting the
claim that every unmatched case reaches the General responder. -/
theorem c7_counterexample :
    Router.supervisor_node (.ok "unrelated reply") "good morning everyone" =
      "news_agent" ∧
    ("news_agent" : String) ≠ "General Assistant" ∧
    ("news_agent" : String) ≠ "general_agent" :=
  ⟨by decide, by decide, by decide⟩

/-- Helper: the allocator's retry loop either returns some draw `rand j`
that is collision-free (with all earlier draws colliding), or exhausts its
fuel with every draw colliding. -/
theorem genAux_spec (col : Mongo.MCol) (rand : Nat → Nat) :
    ∀ fuel i,
      (∃ j, i ≤ j ∧ j < i + fuel ∧
        Mongo.genAux col rand i fuel = .ok (rand j) ∧
        Mongo.find_one_qid col (rand j) = none ∧
        ∀ k, i ≤ k → k < j →
          (Mongo.find_one_qid col (rand k)).isSome = true) ∨
      (Mongo.genAux col rand i fuel =
          .error "Unable to generate a unique 3-digit query_id" ∧
        ∀ k, i ≤ k → k < i + fuel →
          (Mongo.find_one_qid col (rand k)).isSome = true) := by
  intro fuel
  induction fuel with
  | zero =>
    intro i
    exact Or.inr ⟨rfl, fun k hk1 hk2 => absurd hk2 (by omega)⟩
  | succ fuel ih =>
    intro i
    unfold Mongo.genAux
    cases hc : (Mongo.find_one_qid col (rand i)).isSome
    · refine Or.inl ⟨i, Nat.le_refl i, by omega, ?_, ?_, ?_⟩
      · simp [hc]
      · exact Option.not_isSome_iff_eq_none.mp (by simp [hc])
      · intro k hk1 hk2
        exact absurd (Nat.lt_of_le_of_lt hk1 hk2) (Nat.lt_irrefl i)
    · rcases ih (i + 1) with ⟨j, hj1, hj2, hj3, hj4, hj5⟩ | ⟨he, hall⟩
      · refine Or.inl ⟨j, by omega, by omega, by simp [hc, hj3], hj4, ?_⟩
        intro k hk1 hk2
        rcases Nat.eq_or_lt_of_le hk1 with rfl | hlt
        · exact hc
        · exact hj5 k hlt hk2
      · refine Or.inr ⟨by simp [hc, he], ?_⟩
        intro k hk1 hk2
        rcases Nat.eq_or_lt_of_le hk1 with rfl | hlt
        · exact hc
        · exact hall k hlt (by omega)

/-- C4: for every store state and every admissible sequence of random
draws (each in 100–999), `_generate_unique_query_id` either returns an id
in 100–999 that no stored document uses, or fails after its 50 attempts
all collided, raising the distinct exhaustion error rather than looping;
and on a store containing every three-digit id it always fails with that
error. -/
theorem c4_claim (col : Mongo.MCol) (rand : Nat → Nat)
    (hr : ∀ i, 100 ≤ rand i ∧ rand i ≤ 999) :
    ((∃ id, Mongo._generate_unique_query_id col rand = .ok id ∧
        100 ≤ id ∧ id ≤ 999 ∧ Mongo.find_one_qid col id = none) ∨
      (Mongo._generate_unique_query_id col rand =
          .error "Unable to generate a unique 3-digit query_id" ∧
        ∀ k < 50, (Mongo.find_one_qid col (rand k)).isSome = true)) ∧
    ((∀ n, 100 ≤ n → n ≤ 999 → (Mongo.find_one_qid col n).isSome = true) →
      Mongo._generate_unique_query_id col rand =
        .error "Unable to generate a unique 3-digit query_id") := by
  have hs := genAux_spec col rand 50 0
  constructor
  · rcases hs with ⟨j, hj1, hj2, hj3, hj4, hj5⟩ | ⟨he, hall⟩
    · exact Or.inl ⟨rand j, hj3, (hr j).1, (hr j).2, hj4⟩
    · exact Or.inr ⟨he, fun k hk => hall k (Nat.zero_le k) (by omega)⟩
  · intro hfull
    rcases hs with ⟨j, hj1, hj2, hj3, hj4, hj5⟩ | ⟨he, hall⟩
    · have hsome := hfull (rand j) (hr j).1 (hr j).2
      rw [hj4] at hsome
      exact absurd hsome (by simp)
    · exact he

/-- C4 witness: on the saturated store holding all 900 three-digit ids,
allocation fails with the exhaustion error. -/
theorem c4_witness :
    (∀ i, 100 ≤ Fix.randFull i ∧ Fix.randFull i ≤ 999) ∧
    Mongo._generate_unique_query_id Fix.fullCol Fix.randFull =
      .error "Unable to generate a unique 3-digit query_id" := by
  have hr : ∀ i, 100 ≤ Fix.randFull i ∧ Fix.randFull i ≤ 999 := by
    intro i
    unfold Fix.randFull
    omega
  refine ⟨hr, (c4_claim Fix.fullCol Fix.randFull hr).2 ?_⟩
  intro n h1 h2
  unfold Mongo.find_one_qid
  rw [List.find?_isSome]
  refine ⟨Fix.fullDoc (n - 100), ?_, ?_⟩
  · show Fix.fullDoc (n - 100) ∈ (List.range 900).map Fix.fullDoc
    exact List.mem_map_of_mem Fix.fullDoc (List.mem_range.mpr (by omega))
  · simp only [Fix.fullDoc, beq_iff_eq]
    omega

/-- C2 (amended): a successful insert returns an id unique among all
stored records, and the subsequent point lookup returns the inserted
`query`, `agent`, `response` and `executionTime` (with the server-assigned
timestamp).  In the SQLite store the returned record's id also equals the
returned id; in the MongoDB store the returned record's `query_id` field
is instead the string form of the engine's internal `_id` of the new
document. -/
theorem c2_claim :
    (∀ (db : Db.DB) (now : Nat) (q a r : String) (t : ℚ),
      (∀ row ∈ db.rows, row.query_id ≤ db.seq) →
      (∀ row ∈ db.rows,
        row.query_id ≠ (Db.save_query db now q a r t).1) ∧
      Db.get_query_by_id (Db.save_query db now q a r t).2
          (Db.save_query db now q a r t).1 =
        some { query_id := (Db.save_query db now q a r t).1, query := q,
               agent := a, response := r, timestamp := now,
               execution_time := t }) ∧
    (∀ (col : Mongo.MCol) (rand : Nat → Nat) (q a r : String) (t : ℚ)
        (adj : List String) (now : Nat) (qid : Nat) (col' : Mongo.MCol),
      Mongo.save_query_document col rand q a r t adj now = .ok (qid, col') →
      (∀ d ∈ col.docs, d.query_id ≠ qid) ∧
      Mongo.get_query_document_by_id col' qid =
        some { query_id := toString col.nextOid, query := q, agent := a,
               response := r, timestamp := now, execution_time := t,
               adjustments := adj }) := by
  constructor
  · intro db now q a r t hb
    refine ⟨?_, ?_⟩
    · intro row hrow
      have h := hb row hrow
      show row.query_id ≠ db.seq + 1
      omega
    · show (db.rows ++
          [({ query_id := db.seq + 1, query := q, agent := a, response := r,
              timestamp := now, execution_time := t } : Db.Row)]).find?
          (fun x => x.query_id == db.seq + 1) =
        some { query_id := db.seq + 1, query := q, agent := a, response := r,
               timestamp := now, execution_time := t }
      rw [List.find?_append]
      have h1 : db.rows.find? (fun x => x.query_id == db.seq + 1) = none := by
        rw [List.find?_eq_none]
        intro x hx
        have := hb x hx
        simp only [beq_iff_eq]
        omega
      rw [h1]
      simp
  · intro col rand q a r t adj now qid col' hsave
    unfold Mongo.save_query_document at hsave
    rcases hgen : Mongo._generate_unique_query_id col rand with e | newId
    · rw [hgen] at hsave
      exact absurd hsave (by simp)
    · rw [hgen] at hsave
      simp only [Except.ok.injEq, Prod.mk.injEq] at hsave
      obtain ⟨hqid, hcol⟩ := hsave
      subst hqid
      subst hcol
      have hfree : Mongo.find_one_qid col newId = none := by
        rcases genAux_spec col rand 50 0 with ⟨j, _, _, hj3, hj4, _⟩ |
          ⟨he, _⟩
        · unfold Mongo._generate_unique_query_id at hgen
          rw [hj3] at hgen
          simp only [Except.ok.injEq] at hgen
          rw [← hgen]
          exact hj4
        · unfold Mongo._generate_unique_query_id at hgen
          rw [he] at hgen
          exact absurd hgen (by simp)
      refine ⟨?_, ?_⟩
      · intro d hd heq
        have hno := List.find?_eq_none.mp hfree d hd
        exact hno (by simp [heq])
      · show ((col.docs ++
            [({ oid := col.nextOid, query_id := newId, query := q,
                agent := a, response := r, answer := r, execution_time := t,
                timestamp := now, adjustments := adj } : Mongo.MDoc)]).find?
            (fun d => d.query_id == newId)).map Mongo._normalize_document =
          some { query_id := toString col.nextOid, query := q, agent := a,
                 response := r, timestamp := now, execution_time := t,
                 adjustments := adj }
        rw [List.find?_append]
        rw [show col.docs.find? (fun d => d.query_id == newId) = none
          from hfree]
        simp [Mongo._normalize_document]

/-- C2 counterexample: in the MongoDB store, inserting with allocated id
123 into an empty collection whose engine `_id` counter is 5, then looking
the record up by 123, returns a record whose id field is `"5"` (the
engine's internal `_id`), not the inserted id 123. -/
theorem c2_counterexample :
    Mongo.save_query_document Fix.mcol0 Fix.rand123 "q1" "Stock Analyst"
        "resp" (3/2) ["a"] 9 = .ok (123, Fix.mcolAfter) ∧
    (Mongo.get_query_document_by_id Fix.mcolAfter 123).map
        Mongo.NormDoc.query_id = some "5" ∧
    some "5" ≠ some (toString (123 : Nat)) :=
  ⟨rfl, by decide, by decide⟩

/-- C2 witness: the insert/lookup round trip at concrete stores, for both
backends. -/
theorem c2_witness :
    ((∀ row ∈ Fix.dbOne.rows,
        row.query_id ≠
          (Db.save_query Fix.dbOne 7 "nq" "General Assistant" "nr" 2).1) ∧
      Db.get_query_by_id
          (Db.save_query Fix.dbOne 7 "nq" "General Assistant" "nr" 2).2
          (Db.save_query Fix.dbOne 7 "nq" "General Assistant" "nr" 2).1 =
        some { query_id :=
                 (Db.save_query Fix.dbOne 7 "nq" "General Assistant"
                   "nr" 2).1,
               query := "nq", agent := "General Assistant", response := "nr",
               timestamp := 7, execution_time := 2 }) ∧
    ((∀ d ∈ Fix.mcol0.docs, d.query_id ≠ 123) ∧
      Mongo.get_query_document_by_id Fix.mcolAfter 123 =
        some { query_id := toString Fix.mcol0.nextOid, query := "q1",
               agent := "Stock Analyst", response := "resp", timestamp := 9,
               execution_time := 3/2, adjustments := ["a"] }) :=
  ⟨c2_claim.1 Fix.dbOne 7 "nq" "General Assistant" "nr" 2 (by decide),
   c2_claim.2 Fix.mcol0 Fix.rand123 "q1" "Stock Analyst" "resp" (3/2)
     ["a"] 9 123 Fix.mcolAfter rfl⟩

/-- Helper: filtering keeps the first `q`-match when that match passes the
filter (used for id-lookup stability across deletes of other ids). -/
theorem find?_filter_keep {α : Type} (p q : α → Bool) (l : List α) (r : α)
    (h : l.find? q = some r) (hp : p r = true) :
    (l.filter p).find? q = some r := by
  induction l with
  | nil => simp at h
  | cons x xs ih =>
    cases hqx : q x
    · simp only [List.find?_cons, hqx] at h
      by_cases hpx : p x = true
      · simp only [List.filter_cons, hpx, if_true, List.find?_cons, hqx]
        exact ih h
      · simp only [List.filter_cons, hpx, if_false]
        exact ih h
    · simp only [List.find?_cons, hqx] at h
      obtain rfl : x = r := Option.some.inj h
      simp only [List.filter_cons, hp, if_true, List.find?_cons, hqx]

/-- Helper: one Query Store operation that does not target id `id` leaves
the point lookup of `id` unchanged. -/
theorem get_stable_step (db : Db.DB) (op : Db.Op) (id : Nat) (r : Db.Row)
    (h : Db.get_query_by_id db id = some r) (havoid : Db.avoids id op) :
    Db.get_query_by_id (Db.applyOp db op) id = some r := by
  unfold Db.get_query_by_id at h
  cases op with
  | save now q a resp t =>
    show ((db.rows ++ _).find? _) = some r
    rw [List.find?_append, h]
    rfl
  | del i =>
    have hne : i ≠ id := havoid
    have hpr : (fun x : Db.Row => x.query_id != i) r = true := by
      have := List.find?_some h
      simp only [beq_iff_eq] at this
      simp only [bne_iff_ne, ne_eq, this]
      omega
    exact find?_filter_keep _ _ _ _ h hpr
  | clear => exact absurd havoid (by simp [Db.avoids])

/-- C3 (amended): in the live (SQLite) store every operation preserves the
invariant that exposed ids are positive, bounded by the AUTOINCREMENT
sequence and pairwise distinct, every looked-up record's id is a positive
integer, and an id is stable for the record's lifetime: any sequence of
operations that does not delete the record (nor clear the store) leaves
its point lookup unchanged.  The exposed id is, however, the storage
engine's own row identifier (the AUTOINCREMENT INTEGER PRIMARY KEY), and
the MongoDB normalization even exposes the internal `_id` directly. -/
theorem c3_claim :
    (∀ (db : Db.DB) (op : Db.Op), Db.Inv db → Db.Inv (Db.applyOp db op)) ∧
    (∀ (db : Db.DB) (id : Nat) (r : Db.Row), Db.Inv db →
      Db.get_query_by_id db id = some r → 1 ≤ r.query_id) ∧
    (∀ (db : Db.DB) (ops : List Db.Op) (id : Nat) (r : Db.Row),
      Db.get_query_by_id db id = some r →
      (∀ op ∈ ops, Db.avoids id op) →
      Db.get_query_by_id (Db.applyOps db ops) id = some r) := by
  refine ⟨?_, ?_, ?_⟩
  · intro db op hInv
    cases op with
    | save now q a resp t =>
      constructor
      · intro x hx
        rcases List.mem_append.mp hx with hx1 | hx2
        · have := hInv.1 x hx1
          show 1 ≤ x.query_id ∧ x.query_id ≤ db.seq + 1
          omega
        · simp only [List.mem_singleton] at hx2
          subst hx2
          show 1 ≤ db.seq + 1 ∧ db.seq + 1 ≤ db.seq + 1
          omega
      · show ((db.rows ++ _).map _).Nodup
        rw [List.map_append]
        refine List.Nodup.append hInv.2 (List.nodup_singleton _) ?_
        intro x hx1 hx2
        simp only [List.map_cons, List.map_nil, List.mem_singleton] at hx2
        obtain ⟨row, hrow, hxid⟩ := List.mem_map.mp hx1
        have := hInv.1 row hrow
        subst hx2
        omega
    | del i =>
      constructor
      · intro x hx
        exact hInv.1 x (List.mem_of_mem_filter hx)
      · exact List.Nodup.sublist
          (List.Sublist.map _ (List.filter_sublist _)) hInv.2
    | clear =>
      exact ⟨fun x hx => absurd hx (List.not_mem_nil x), List.nodup_nil⟩
  · intro db id r hInv hfind
    exact (hInv.1 r (List.mem_of_find?_eq_some hfind)).1
  · intro db ops
    induction ops generalizing db with
    | nil => intro id r h _; exact h
    | cons op ops ih =>
      intro id r h havoid
      exact ih (Db.applyOp db op) id r
        (get_stable_step db op id r h (havoid op (List.mem_cons_self op ops)))
        (fun o ho => havoid o (List.mem_cons_of_mem op ho))

/-- C3 counterexample: the normalized record exposed by the MongoDB store
carries as its id the string form of the engine's internal `_id` (42), not
the allocated external id (123) — the exposed id IS the storage engine's
document identifier, refuting the claim. -/
theorem c3_counterexample :
    (Mongo._normalize_document Fix.mdocC3).query_id =
      toString Fix.mdocC3.oid ∧
    (Mongo._normalize_document Fix.mdocC3).query_id ≠
      toString Fix.mdocC3.query_id :=
  ⟨rfl, by decide⟩

/-- C3 witness: a concrete store, an insert plus an unrelated delete, and
the record's id and lookup survive unchanged. -/
theorem c3_witness :
    Db.Inv Fix.dbOne ∧
    Db.get_query_by_id Fix.dbOne 1 = some Fix.rowOne ∧
    (∀ op ∈ Fix.opsKeep, Db.avoids 1 op) ∧
    Db.get_query_by_id (Db.applyOps Fix.dbOne Fix.opsKeep) 1 =
      some Fix.rowOne ∧
    1 ≤ Fix.rowOne.query_id :=
  ⟨by decide, by decide, by decide,
   c3_claim.2.2 Fix.dbOne Fix.opsKeep 1 Fix.rowOne (by decide) (by decide),
   c3_claim.2.1 Fix.dbOne 1 Fix.rowOne (by decide) (by decide)⟩

/-- Helper: bumping an agent's count raises exactly that agent's looked-up
count by one. -/
theorem lookup_bump_self (acc : List (String × Nat)) (a : String) :
    ((Db.bump acc a).lookup a).getD 0 = ((acc.lookup a).getD 0) + 1 := by
  induction acc with
  | nil => simp [Db.bump, List.lookup]
  | cons kv rest ih =>
    obtain ⟨k, v⟩ := kv
    by_cases hk : k = a
    · subst hk
      simp [Db.bump, List.lookup]
    · have h1 : (k == a) = false := beq_eq_false_iff_ne.mpr hk
      have h2 : (a == k) = false := beq_eq_false_iff_ne.mpr (Ne.symm hk)
      simp only [Db.bump, h1, if_false, List.lookup, h2]
      exact ih

/-- Helper: bumping an agent's count leaves other agents' lookups alone. -/
theorem lookup_bump_other (acc : List (String × Nat)) (a b : String)
    (hab : b ≠ a) :
    (Db.bump acc a).lookup b = acc.lookup b := by
  induction acc with
  | nil =>
    have h2 : (b == a) = false := beq_eq_false_iff_ne.mpr hab
    simp [Db.bump, List.lookup, h2]
  | cons kv rest ih =>
    obtain ⟨k, v⟩ := kv
    by_cases hk : k = a
    · subst hk
      have h2 : (b == k) = false := beq_eq_false_iff_ne.mpr hab
      simp [Db.bump, List.lookup, h2]
    · have h1 : (k == a) = false := beq_eq_false_iff_ne.mpr hk
      by_cases hbk : b = k
      · subst hbk
        simp [Db.bump, h1, List.lookup]
      · have h2 : (b == k) = false := beq_eq_false_iff_ne.mpr hbk
        simp only [Db.bump, h1, if_false, List.lookup, h2]
        exact ih

/-- Helper: the group-by fold counts exactly the records of each agent. -/
theorem lookup_groupCounts (rows : List Db.Row) :
    ∀ (acc : List (String × Nat)) (a : String),
      ((rows.foldl (fun m r => Db.bump m r.agent) acc).lookup a).getD 0 =
        (acc.lookup a).getD 0 + rows.countP (fun r => r.agent == a) := by
  induction rows with
  | nil => intro acc a; simp [List.countP_nil]
  | cons r rows ih =>
    intro acc a
    simp only [List.foldl_cons]
    rw [ih]
    by_cases hra : r.agent = a
    · rw [List.countP_cons_of_pos _ _ (by simp [hra])]
      rw [hra, lookup_bump_self]
      omega
    · rw [List.countP_cons_of_neg _ _ (by simp [hra])]
      rw [lookup_bump_other acc r.agent a (fun h => hra h.symm)]

/-- Helper: the running-sum fold equals the list sum of execution times. -/
theorem sumTimes_eq (rows : List Db.Row) :
    Db.sumTimes rows = (rows.map Db.Row.execution_time).sum := by
  have haux : ∀ (l : List Db.Row) (init : ℚ),
      l.foldl (fun acc r => acc + r.execution_time) init =
        init + (l.map Db.Row.execution_time).sum := by
    intro l
    induction l with
    | nil => intro init; simp
    | cons x xs ih =>
      intro init
      simp only [List.foldl_cons, List.map_cons, List.sum_cons, ih]
      ring
  simpa [Db.sumTimes] using haux rows 0

/-- Helper: with timestamps non-decreasing in insertion order, every
record's timestamp is bounded by the last record's. -/
theorem pairwise_le_getLast (rows : List Db.Row)
    (hmono : rows.Pairwise (fun a b => a.timestamp ≤ b.timestamp)) :
    ∀ x ∈ rows, ∀ (h : rows ≠ []),
      x.timestamp ≤ (rows.getLast h).timestamp := by
  induction rows with
  | nil => intro x hx; simp at hx
  | cons r rows ih =>
    intro x hx h
    by_cases hr : rows = []
    · subst hr
      simp only [List.mem_singleton] at hx
      subst hx
      simp [List.getLast]
    · rw [List.getLast_cons hr]
      rcases List.mem_cons.mp hx with rfl | hx2
      · exact (List.pairwise_cons.mp hmono).1 _ (List.getLast_mem hr)
      · exact ih (List.pairwise_cons.mp hmono).2 x hx2 hr

/-- Helper: the head of the timestamp-descending sort carries the last
inserted record's timestamp, when timestamps are monotone in insertion
order. -/
theorem sorted_head_timestamp (rows : List Db.Row) (h : rows ≠ [])
    (hmono : rows.Pairwise (fun a b => a.timestamp ≤ b.timestamp)) :
    ((List.insertionSort Db.tsGe rows).head?).map Db.Row.timestamp =
      some ((rows.getLast h).timestamp) := by
  have hperm := List.perm_insertionSort Db.tsGe rows
  have hsorted := List.sorted_insertionSort Db.tsGe rows
  cases hs : List.insertionSort Db.tsGe rows with
  | nil =>
    rw [hs] at hperm
    exact absurd hperm.symm.eq_nil h
  | cons hd tl =>
    have hmem_hd : hd ∈ rows :=
      hperm.mem_iff.mp (hs ▸ List.mem_cons_self hd tl)
    have h1 : hd.timestamp ≤ (rows.getLast h).timestamp :=
      pairwise_le_getLast rows hmono hd hmem_hd h
    have hlast_sorted : rows.getLast h ∈ List.insertionSort Db.tsGe rows :=
      hperm.mem_iff.mpr (List.getLast_mem h)
    rw [hs] at hlast_sorted hsorted
    have heq : hd.timestamp = (rows.getLast h).timestamp := by
      rcases List.mem_cons.mp hlast_sorted with heq | hmem_tl
      · rw [heq]
      · exact le_antisymm h1 ((List.pairwise_cons.mp hsorted).1 _ hmem_tl)
    simp [List.head?, heq]

/-- C6: `get_statistics` reports the total record count, the per-agent
counts over all records, the mean execution time rounded to 3 decimal
places (0.0 on the empty store), and the timestamp of the most recently
inserted record (absent on the empty store), provided timestamps are
monotone in insertion order (the store invariant). -/
theorem c6_claim (db : Db.DB)
    (hmono : db.rows.Pairwise (fun a b => a.timestamp ≤ b.timestamp)) :
    (Db.get_statistics db).total_queries = db.rows.length ∧
    (∀ a : String,
      (((Db.get_statistics db).queries_by_agent.lookup a).getD 0) =
        db.rows.countP (fun r => r.agent == a)) ∧
    (Db.get_statistics db).avg_execution_time =
      pyRound3 ((db.rows.map Db.Row.execution_time).sum /
        (db.rows.length : ℚ)) ∧
    (db.rows = [] → (Db.get_statistics db).avg_execution_time = 0) ∧
    (db.rows = [] → (Db.get_statistics db).last_query_time = none) ∧
    (∀ h : db.rows ≠ [],
      (Db.get_statistics db).last_query_time =
        some ((db.rows.getLast h).timestamp)) := by
  have hz : pyRound3 0 = 0 := by
    norm_num [pyRound3, pyRoundHalfEven]
  refine ⟨rfl, ?_, ?_, ?_, ?_, ?_⟩
  · intro a
    simpa [Db.get_statistics, Db.groupCounts] using
      lookup_groupCounts db.rows [] a
  · by_cases he : db.rows = []
    · simp [Db.get_statistics, he, hz]
    · have hne : db.rows.isEmpty = false := by
        simp [List.isEmpty_iff, he]
      simp [Db.get_statistics, hne, sumTimes_eq]
  · intro he
    simp [Db.get_statistics, he, hz]
  · intro he
    simp [Db.get_statistics, he]
  · intro h
    show ((List.insertionSort Db.tsGe db.rows).head?).map Db.Row.timestamp =
      some ((db.rows.getLast h).timestamp)
    exact sorted_head_timestamp db.rows h hmono

/-- C6 witness: the statistics of a concrete two-row store. -/
theorem c6_witness :
    Fix.dbAB.rows.Pairwise (fun a b => a.timestamp ≤ b.timestamp) ∧
    (Db.get_statistics Fix.dbAB).total_queries = 2 ∧
    (((Db.get_statistics Fix.dbAB).queries_by_agent.lookup
        "News Agent").getD 0) = 1 ∧
    (Db.get_statistics Fix.dbAB).avg_execution_time =
      pyRound3 ((Fix.dbAB.rows.map Db.Row.execution_time).sum /
        (Fix.dbAB.rows.length : ℚ)) ∧
    (Db.get_statistics Fix.dbAB).last_query_time = some 2 := by
  have hm : Fix.dbAB.rows.Pairwise (fun a b => a.timestamp ≤ b.timestamp) :=
    by decide
  have hc := c6_claim Fix.dbAB hm
  exact ⟨hm, (hc.1).trans (by decide), (hc.2.1 "News Agent").trans (by decide),
    hc.2.2.1, (hc.2.2.2.2.2 (by decide)).trans (by decide)⟩

/-!
Lemmas about the `LIKE` matcher: fuel irrelevance, one-step unfolding
equations, and the equivalence of a `%term%` pattern (for a wildcard-free
term) with case-insensitive substring containment.
-/

theorem likeFuel_congr : ∀ (f g : Nat) (p q : List Char),
    p.length + q.length < f → p.length + q.length < g →
    likeFuel f p q = likeFuel g p q := by
  intro f
  induction f with
  | zero => intro g p q hf hg; exact absurd hf (by omega)
  | succ f ih =>
    intro g p q hf hg
    cases g with
    | zero => exact absurd hg (by omega)
    | succ g =>
      cases p with
      | nil => cases q <;> rfl
      | cons p0 ps =>
        cases q with
        | nil =>
          simp only [List.length_cons, List.length_nil] at hf hg
          simp only [likeFuel]
          by_cases hp : p0 = '%'
          · rw [if_pos hp, if_pos hp,
              ih g ps [] (by simp; omega) (by simp; omega)]
          · rw [if_neg hp, if_neg hp]
        | cons c qs =>
          simp only [List.length_cons] at hf hg
          simp only [likeFuel]
          by_cases hp : p0 = '%'
          · subst hp
            rw [if_pos rfl, if_pos rfl,
              ih g ps (c :: qs) (by simp; omega) (by simp; omega),
              ih g ('%' :: ps) qs (by simp; omega) (by simp; omega)]
          · rw [if_neg hp, if_neg hp]
            by_cases hu : p0 = '_'
            · rw [if_pos hu, if_pos hu, ih g ps qs (by omega) (by omega)]
            · rw [if_neg hu, if_neg hu, ih g ps qs (by omega) (by omega)]

theorem likeMatch_nil (q : List Char) : likeMatch [] q = q.isEmpty := rfl

theorem likeMatch_cons_nil (p0 : Char) (ps : List Char) :
    likeMatch (p0 :: ps) [] = if p0 = '%' then likeMatch ps [] else false := rfl

theorem likeMatch_pct (ps : List Char) (c : Char) (qs : List Char) :
    likeMatch ('%' :: ps) (c :: qs) =
      (likeMatch ps (c :: qs) || likeMatch ('%' :: ps) qs) := by
  have e1 : likeMatch ('%' :: ps) (c :: qs) =
      likeFuel (ps.length + qs.length + 3) ('%' :: ps) (c :: qs) := by
    apply likeFuel_congr <;> simp only [List.length_cons] <;> omega
  rw [e1]
  show (if ('%' : Char) = '%' then
      likeFuel (ps.length + qs.length + 2) ps (c :: qs) ||
      likeFuel (ps.length + qs.length + 2) ('%' :: ps) qs
    else _) = _
  rw [if_pos rfl]
  unfold likeMatch
  rw [likeFuel_congr (ps.length + qs.length + 2) (ps.length + (c :: qs).length + 1)
      ps (c :: qs) (by simp only [List.length_cons]; omega)
      (by simp only [List.length_cons]; omega),
    likeFuel_congr (ps.length + qs.length + 2) (('%' :: ps).length + qs.length + 1)
      ('%' :: ps) qs (by simp only [List.length_cons]; omega)
      (by simp only [List.length_cons]; omega)]

theorem likeMatch_char (p0 : Char) (ps : List Char) (c : Char) (qs : List Char)
    (h1 : p0 ≠ '%') :
    likeMatch (p0 :: ps) (c :: qs) =
      if p0 = '_' then likeMatch ps qs
      else ((p0.toLower == c.toLower) && likeMatch ps qs) := by
  have e1 : likeMatch (p0 :: ps) (c :: qs) =
      likeFuel (ps.length + qs.length + 3) (p0 :: ps) (c :: qs) := by
    apply likeFuel_congr <;> simp only [List.length_cons] <;> omega
  rw [e1]
  show (if p0 = '%' then _ else
      if p0 = '_' then likeFuel (ps.length + qs.length + 2) ps qs
      else ((p0.toLower == c.toLower) &&
        likeFuel (ps.length + qs.length + 2) ps qs)) = _
  rw [if_neg h1]
  unfold likeMatch
  by_cases hu : p0 = '_'
  · rw [if_pos hu, if_pos hu,
      likeFuel_congr (ps.length + qs.length + 2) (ps.length + qs.length + 1)
        ps qs (by omega) (by omega)]
  · rw [if_neg hu, if_neg hu,
      likeFuel_congr (ps.length + qs.length + 2) (ps.length + qs.length + 1)
        ps qs (by omega) (by omega)]

theorem likeMatch_pct_single (q : List Char) : likeMatch ['%'] q = true := by
  induction q with
  | nil => rfl
  | cons c qs ih =>
    rw [likeMatch_pct, likeMatch_nil, ih]
    simp

theorem likeMatch_anchor (s : List Char) (hs : noWild s) :
    ∀ q, likeMatch (s ++ ['%']) q =
      startsHere (s.map Char.toLower) (q.map Char.toLower) := by
  induction s with
  | nil =>
    intro q
    simp only [List.nil_append, List.map_nil]
    rw [likeMatch_pct_single]
    cases q <;> rfl
  | cons a s ih =>
    intro q
    have ha := hs a (List.mem_cons_self a s)
    have hs' : noWild s := fun c hc => hs c (List.mem_cons_of_mem a hc)
    cases q with
    | nil =>
      rw [List.cons_append, likeMatch_cons_nil, if_neg ha.1]
      rfl
    | cons c qs =>
      rw [List.cons_append, likeMatch_char a (s ++ ['%']) c qs ha.1,
        if_neg ha.2, ih hs' qs]
      rfl

theorem likeMatch_contains (s : List Char) (hs : noWild s) :
    ∀ q, likeMatch ('%' :: (s ++ ['%'])) q =
      occursIn (s.map Char.toLower) (q.map Char.toLower) := by
  intro q
  induction q with
  | nil =>
    rw [likeMatch_cons_nil, if_pos rfl, likeMatch_anchor s hs []]
    rfl
  | cons c qs ih =>
    rw [likeMatch_pct, likeMatch_anchor s hs (c :: qs), ih]
    rfl


/-- Helper: for a search term free of `LIKE` wildcards, the code's
`query LIKE '%term%'` filter is exactly case-insensitive substring
containment. -/
theorem sqlLike_contains (t q : String) (hs : noWild t.data) :
    sqlLike ("%" ++ t ++ "%") q = containsCI t q := by
  obtain ⟨l⟩ := t
  obtain ⟨m⟩ := q
  show likeMatch ('%' :: (l ++ ['%'])) m = _
  rw [likeMatch_contains l hs m]
  rfl

/-- C5 (amended): for every limit, offset, agent filter and search term —
the search term containing no SQL LIKE wildcard characters (`%`, `_`) —
the listing returns only records passing the filters (exact agent match;
case-insensitive substring match on the query), in non-increasing
timestamp order, with `totalCount` counting all matching records
independently of limit and offset, and an offset at or beyond the match
count yields an empty page.  For a search term containing wildcards the
code's `LIKE` filter is weaker than substring containment. -/
theorem c5_claim (db : Db.DB) (limit offset : Nat)
    (agent_filter search : Option String)
    (hs : noWild ((search.getD "").data)) :
    (∀ r ∈ (Db.get_query_history db limit offset agent_filter search).1,
      (truthy agent_filter = true → r.agent = agent_filter.getD "") ∧
      (truthy search = true →
        containsCI (search.getD "") r.query = true)) ∧
    ((Db.get_query_history db limit offset agent_filter search).1).Pairwise
      (fun a b => b.timestamp ≤ a.timestamp) ∧
    (∀ limit2 offset2,
      (Db.get_query_history db limit2 offset2 agent_filter search).2 =
        (Db.get_query_history db limit offset agent_filter search).2) ∧
    (Db.get_query_history db limit offset agent_filter search).2 =
      db.rows.countP (fun r =>
        (!truthy agent_filter || (r.agent == agent_filter.getD "")) &&
        (!truthy search || containsCI (search.getD "") r.query)) ∧
    ((Db.get_query_history db limit offset agent_filter search).2 ≤ offset →
      (Db.get_query_history db limit offset agent_filter search).1 = []) := by
  have hitems : (Db.get_query_history db limit offset agent_filter search).1 =
      ((List.insertionSort Db.tsGe
        (db.rows.filter (Db.wherePass agent_filter search))).drop
          offset).take limit := rfl
  have htotal : (Db.get_query_history db limit offset agent_filter search).2 =
      (db.rows.filter (Db.wherePass agent_filter search)).length := rfl
  have hsub : List.Sublist
      (Db.get_query_history db limit offset agent_filter search).1
      (List.insertionSort Db.tsGe
        (db.rows.filter (Db.wherePass agent_filter search))) := by
    rw [hitems]
    exact (List.take_sublist _ _).trans (List.drop_sublist _ _)
  have hpred : ∀ r : Db.Row, Db.wherePass agent_filter search r =
      ((!truthy agent_filter || (r.agent == agent_filter.getD "")) &&
       (!truthy search || containsCI (search.getD "") r.query)) := by
    intro r
    rw [Db.wherePass]
    congr 1
    · cases agent_filter with
      | none => rfl
      | some a =>
        by_cases ha : a = ""
        · subst ha
          rfl
        · have h1 : (a == "") = false := beq_eq_false_iff_ne.mpr ha
          have h2 : truthy (some a) = true := by
            simp [truthy, bne_iff_ne, ha]
          simp [Db.agentPass, h1, h2, Option.getD]
    · cases search with
      | none => rfl
      | some t =>
        by_cases htt : t = ""
        · subst htt
          rfl
        · have h1 : (t == "") = false := beq_eq_false_iff_ne.mpr htt
          have h2 : truthy (some t) = true := by
            simp [truthy, bne_iff_ne, htt]
          have hs' : noWild t.data := hs
          simp only [Db.searchPass, h1, Bool.false_eq_true, if_false, h2,
            Bool.not_true, Bool.false_or, Option.getD_some]
          exact sqlLike_contains t r.query hs'
  refine ⟨?_, ?_, ?_, ?_, ?_⟩
  · intro r hr
    have hrs : r ∈ List.insertionSort Db.tsGe
        (db.rows.filter (Db.wherePass agent_filter search)) := hsub.subset hr
    have hrm : r ∈ db.rows.filter (Db.wherePass agent_filter search) :=
      (List.mem_insertionSort Db.tsGe).mp hrs
    have hw : Db.wherePass agent_filter search r = true :=
      (List.mem_filter.mp hrm).2
    rw [hpred r, Bool.and_eq_true] at hw
    obtain ⟨hag, hse⟩ := hw
    constructor
    · intro ht
      rw [ht, Bool.not_true, Bool.false_or, beq_iff_eq] at hag
      exact hag
    · intro ht
      rw [ht, Bool.not_true, Bool.false_or] at hse
      exact hse
  · exact List.Pairwise.sublist hsub
      (List.sorted_insertionSort Db.tsGe
        (db.rows.filter (Db.wherePass agent_filter search)))
  · intro limit2 offset2
    rfl
  · rw [htotal, ← List.countP_eq_length_filter]
    exact List.countP_congr (fun x hx => by rw [hpred x])
  · intro hle
    rw [htotal] at hle
    rw [hitems]
    have hlen : (List.insertionSort Db.tsGe
        (db.rows.filter (Db.wherePass agent_filter search))).length =
        (db.rows.filter (Db.wherePass agent_filter search)).length :=
      (List.perm_insertionSort Db.tsGe _).length_eq
    rw [List.drop_eq_nil_of_le (by rw [hlen]; exact hle)]
    exact List.take_nil

/-- C5 counterexample: with search term `"_"` (a LIKE single-character
wildcard) the listing returns the record whose query is `"x"`, although
`"x"` does not contain `"_"` — the returned items do not satisfy the
claimed case-insensitive-substring filter for every search term. -/
theorem c5_counterexample :
    Db.get_query_history Fix.dbX 50 0 none (some "_") = ([Fix.rowX], 1) ∧
    containsCI "_" Fix.rowX.query = false :=
  ⟨by decide, by decide⟩

/-- C5 witness: a concrete wildcard-free search returns exactly the
matching record, with the correct total, and the theorem's filter
guarantee applies to it. -/
theorem c5_witness :
    noWild (("ai" : String).data) ∧
    (Db.get_query_history Fix.dbAB 10 0 none (some "ai")).1 = [Fix.rowA] ∧
    (Db.get_query_history Fix.dbAB 10 0 none (some "ai")).2 = 1 ∧
    (∀ r ∈ (Db.get_query_history Fix.dbAB 10 0 none (some "ai")).1,
      truthy (some "ai") = true → containsCI "ai" r.query = true) := by
  refine ⟨by decide, by decide, by decide, ?_⟩
  intro r hr
  exact fun ht =>
    ((c5_claim Fix.dbAB 10 0 none (some "ai") (by decide)).1 r hr).2 ht
